import Mathlib

/-!
Verification of the NoxSync core against its specification.

The Rust source is shallowly embedded: `f64` values are modelled by `Nox.F64`
(NaN, the two infinities, or an exact rational), fallible Rust functions
return `Except`, and the two export retry loops are embedded as pure
functions over an environment that records the outcome of every external
command run, producing an explicit event trace.
-/

set_option maxRecDepth 8000

namespace Nox

/-- Model of an IEEE `f64` value as used by the Rust code: NaN, an infinity,
or a finite value represented exactly as a rational number. -/
inductive F64
  | nan
  | negInf
  | posInf
  | fin (q : ℚ)
  deriving DecidableEq

namespace F64

/-- IEEE ordered comparison `a < b`: every comparison involving NaN is false. -/
def lt : F64 → F64 → Bool
  | nan, _ => false
  | _, nan => false
  | negInf, negInf => false
  | negInf, _ => true
  | _, negInf => false
  | posInf, _ => false
  | _, posInf => true
  | fin p, fin q => decide (p < q)

/-- IEEE ordered comparison `a ≤ b`: every comparison involving NaN is false. -/
def le : F64 → F64 → Bool
  | nan, _ => false
  | _, nan => false
  | negInf, _ => true
  | _, negInf => false
  | _, posInf => true
  | posInf, _ => false
  | fin p, fin q => decide (p ≤ q)

/-- IEEE ordered comparison `a > b` (Rust `a > b`). -/
def gt (a b : F64) : Bool := lt b a

end F64

/-- Absolute value of a rational, computed on the numerator so that it
evaluates by kernel reduction. -/
def qAbs (q : ℚ) : ℚ := mkRat q.num.natAbs q.den

theorem qAbs_eq_abs (q : ℚ) : qAbs q = |q| := by
  rw [qAbs, Rat.mkRat_eq_divInt, Rat.abs_def]

/-- Rust `f64::abs`. -/
def F64.abs : F64 → F64
  | nan => nan
  | negInf => posInf
  | posInf => posInf
  | fin q => fin (qAbs q)

/-- `u64::MAX`. -/
def U64_MAX : Nat := 2 ^ 64 - 1

/-- Floor of a nonnegative rational as a natural number. -/
def qFloorNat (q : ℚ) : Nat := q.num.toNat / q.den

/-- Rust `as u64` cast of an `f64` (truncate toward zero, saturating;
NaN casts to 0). -/
def F64.toU64 : F64 → Nat
  | nan => 0
  | negInf => 0
  | posInf => U64_MAX
  | fin q => if q ≤ 0 then 0 else min U64_MAX (qFloorNat q)

deriving instance DecidableEq for Except

/-- `PlatformError` from `src/src-tauri/src/error.rs`. -/
inductive PlatformError
  | invalidUrl (msg : String)
  | vodNotFound (msg : String)
  | apiError (msg : String)
  | parseError (msg : String)
  | noValidQuality
  | unsupportedPlatform (msg : String)
  deriving DecidableEq

/-- `ExportError` from `src/src-tauri/src/error.rs`. -/
inductive ExportError
  | ffmpeg (msg : String)
  | ytDlp (msg : String)
  | outputDir (msg : String)
  | alreadyExists (msg : String)
  | invalidTimeRange (start finish : F64)
  | timeout (msg : String)
  | invalidDuration (d : F64)
  | invalidStartTime (s : F64)
  | durationMismatch (expected actual : F64)
  | corruptedOutput (msg : String)
  | binaryNotFound (msg : String)
  | downloadError (msg : String)
  deriving DecidableEq

/-- Maximum allowed clip duration (1 hour), `MAX_DURATION` in `export/mod.rs`. -/
def MAX_DURATION : ℚ := 3600

/-- Minimum allowed clip duration (100ms), `MIN_DURATION` in `export/mod.rs`;
the rational one tenth, written with `mkRat` so that it evaluates by kernel
reduction. -/
def MIN_DURATION : ℚ := mkRat 1 10

/-- `ClipTiming` from `export/mod.rs`. -/
structure ClipTiming where
  start : F64
  duration : F64
  deriving DecidableEq

/-- `ClipTiming::validate` from `export/mod.rs`:
start must not be negative, duration must not be below `MIN_DURATION`
nor above `MAX_DURATION` (IEEE comparisons on `f64`). -/
def ClipTiming.validate (t : ClipTiming) : Except ExportError Unit :=
  if F64.lt t.start (F64.fin 0) then
    .error (.invalidStartTime t.start)
  else if F64.lt t.duration (F64.fin MIN_DURATION) || F64.gt t.duration (F64.fin MAX_DURATION) then
    .error (.invalidDuration t.duration)
  else
    .ok ()

/-- C4, counterexample: the claim quantifies over every pair of
floating-point values, but for `start = 0` and `duration = NaN` validation
succeeds even though the duration is not within `[0.1, 3600]`
(NaN satisfies no IEEE ordered comparison), so validation does not fail
with `InvalidDuration` as the claim requires. -/
theorem clipTiming_validate_nan_counterexample :
    (ClipTiming.validate ⟨F64.fin 0, F64.nan⟩ = .ok ()) ∧
    (F64.le (F64.fin MIN_DURATION) F64.nan = false) ∧
    (F64.le F64.nan (F64.fin MAX_DURATION) = false) := by
  decide

/-- For a non-NaN value, the IEEE test `a < c` being false is the same as
`c ≤ a`. -/
theorem F64.lt_fin_eq_false_iff (a : F64) (c : ℚ) (ha : a ≠ F64.nan) :
    F64.lt a (F64.fin c) = false ↔ F64.le (F64.fin c) a = true := by
  cases a <;> simp_all [F64.lt, F64.le]

/-- For a non-NaN value, the IEEE test `c < a` being false is the same as
`a ≤ c`. -/
theorem F64.fin_lt_eq_false_iff (a : F64) (c : ℚ) (ha : a ≠ F64.nan) :
    F64.lt (F64.fin c) a = false ↔ F64.le a (F64.fin c) = true := by
  cases a <;> simp_all [F64.lt, F64.le]

/-- `ClipTiming::validate` succeeds exactly when both guarding tests in the
code are false. -/
theorem clipTiming_validate_eq_ok_iff (t : ClipTiming) :
    t.validate = .ok () ↔
      (F64.lt t.start (F64.fin 0) = false ∧
        (F64.lt t.duration (F64.fin MIN_DURATION) ||
          F64.gt t.duration (F64.fin MAX_DURATION)) = false) := by
  unfold ClipTiming.validate
  split_ifs with h1 h2
  · constructor
    · intro h
      exact h.elim
    · intro h
      rw [h.1] at h1
      exact Bool.noConfusion h1
  · constructor
    · intro h
      exact h.elim
    · intro h
      rw [h.2] at h2
      exact Bool.noConfusion h2
  · simp_all [Bool.or_eq_false_iff]

/-- C4 (amended to non-NaN inputs): for every pair of non-NaN `f64` values
`(start, duration)`, `ClipTiming` validation succeeds iff `start ≥ 0` and
`0.1 ≤ duration ≤ 3600`; it fails with `InvalidStartTime` when `start < 0`,
and otherwise with `InvalidDuration` when the duration is out of range. -/
theorem clipTiming_validate_characterization (s d : F64)
    (hs : s ≠ F64.nan) (hd : d ≠ F64.nan) :
    (ClipTiming.validate ⟨s, d⟩ = .ok () ↔
      (F64.le (F64.fin 0) s = true ∧ F64.le (F64.fin MIN_DURATION) d = true ∧
        F64.le d (F64.fin MAX_DURATION) = true)) ∧
    (F64.lt s (F64.fin 0) = true →
      ClipTiming.validate ⟨s, d⟩ = .error (.invalidStartTime s)) ∧
    (F64.lt s (F64.fin 0) = false →
      (F64.lt d (F64.fin MIN_DURATION) || F64.gt d (F64.fin MAX_DURATION)) = true →
      ClipTiming.validate ⟨s, d⟩ = .error (.invalidDuration d)) := by
  refine ⟨?_, ?_, ?_⟩
  · rw [clipTiming_validate_eq_ok_iff]
    simp only [Bool.or_eq_false_iff, F64.gt]
    rw [F64.lt_fin_eq_false_iff s 0 hs, F64.lt_fin_eq_false_iff d MIN_DURATION hd,
      F64.fin_lt_eq_false_iff d MAX_DURATION hd]
  · intro h
    simp [ClipTiming.validate, h]
  · intro h1 h2
    simp [ClipTiming.validate, h1, h2]

/-- Witness for the amended C4 at concrete valid and invalid inputs. -/
theorem clipTiming_validate_characterization_witness :
    (ClipTiming.validate ⟨F64.fin 10, F64.fin 30⟩ = .ok ()) ∧
    (ClipTiming.validate ⟨F64.fin (mkRat (-5) 1), F64.fin 30⟩ =
      .error (.invalidStartTime (F64.fin (mkRat (-5) 1)))) := by
  have h1 := clipTiming_validate_characterization (F64.fin 10) (F64.fin 30)
    (by decide) (by decide)
  have h2 := clipTiming_validate_characterization (F64.fin (mkRat (-5) 1)) (F64.fin 30)
    (by decide) (by decide)
  exact ⟨h1.1.mpr (by decide), h2.2.1 (by decide)⟩

/-! ## The generic-downloader backend's time formatter (`YtDlpExporter::format_time`) -/

/-- Decimal digits of a natural number, most significant first, accumulated
into `acc`; fuel-driven so that it evaluates by kernel reduction. -/
def natDigitsAux : Nat → Nat → List Char → List Char
  | 0, _, acc => acc
  | _, 0, acc => acc
  | fuel + 1, n, acc => natDigitsAux fuel (n / 10) (Char.ofNat (48 + n % 10) :: acc)

/-- Decimal rendering of a natural number, as Rust `Display` renders `u64`. -/
def natToChars (n : Nat) : List Char :=
  if n = 0 then ['0'] else natDigitsAux (n + 1) n []

/-- Width-2 zero-padded decimal rendering of a natural number
(Rust format specifier 02). -/
def pad2 (n : Nat) : List Char :=
  if n < 10 then ['0', Char.ofNat (48 + n)] else natToChars n

/-- `HH:MM:SS` rendering of a total number of seconds, exactly the format
string of `format_time` applied to its `u64` total. -/
def hhmmssOfNat (total : Nat) : List Char :=
  pad2 (total / 3600) ++ ':' :: (pad2 ((total % 3600) / 60) ++ ':' :: pad2 (total % 60))

/-- `YtDlpExporter::format_time` from `export/ytdlp.rs`:
`seconds.abs() as u64` (a saturating, truncating cast), then `HH:MM:SS`. -/
def formatTime (seconds : F64) : List Char :=
  hhmmssOfNat (F64.toU64 (F64.abs seconds))

/-- `qFloorNat` agrees with the mathematical floor on nonnegative rationals. -/
theorem qFloorNat_eq_floor (q : ℚ) (h : 0 ≤ q) : qFloorNat q = Nat.floor q := by
  have hnum : 0 ≤ q.num := Rat.num_nonneg.mpr h
  have h1 : (⌊q⌋ : ℤ) = ((q.num.toNat : ℤ)) / ((q.den : ℕ) : ℤ) := by
    rw [Rat.floor_def, Int.toNat_of_nonneg hnum]
  rw [qFloorNat, ← Int.floor_toNat, h1, ← Int.ofNat_ediv, Int.toNat_natCast]

/-- C10 (amended): for every finite `f64` input whose absolute value floors
within `u64` range, `format_time` renders the zero-padded `HH:MM:SS` of
`floor(|s|)`; in particular negative inputs are silently formatted by their
absolute value rather than clamped or rejected. -/
theorem formatTime_finite (q : ℚ) (h : Nat.floor |q| ≤ U64_MAX) :
    formatTime (F64.fin q) = hhmmssOfNat (Nat.floor |q|) := by
  have habs : qAbs q = |q| := qAbs_eq_abs q
  have hfl : qFloorNat (qAbs q) = Nat.floor |q| := by
    rw [habs]
    exact qFloorNat_eq_floor _ (abs_nonneg q)
  show hhmmssOfNat (F64.toU64 (F64.abs (F64.fin q))) = hhmmssOfNat (Nat.floor |q|)
  have hred : F64.toU64 (F64.abs (F64.fin q)) =
      if qAbs q ≤ 0 then 0 else min U64_MAX (qFloorNat (qAbs q)) := rfl
  rw [hred]
  by_cases hq : qAbs q ≤ 0
  · have habs0 : |q| = 0 := le_antisymm (habs ▸ hq) (abs_nonneg q)
    rw [if_pos hq, habs0]
    norm_num
  · rw [if_neg hq, hfl, min_eq_right h]

/-- C10, counterexample: the claim covers every finite input, but the cast
`seconds.abs() as u64` saturates at `u64::MAX`, so the finite value `2^70`
(exactly representable as an `f64`) is not rendered as `HH:MM:SS` of
`floor(|s|) = 2^70`. -/
theorem formatTime_saturation_counterexample :
    formatTime (F64.fin 1180591620717411303424) ≠
      hhmmssOfNat 1180591620717411303424 := by
  decide

/-- Witness for the amended C10 at the concrete inputs of the claim. -/
theorem formatTime_finite_witness :
    formatTime (F64.fin (-61)) = "00:01:01".toList ∧
    formatTime (F64.fin 0) = "00:00:00".toList ∧
    formatTime (F64.fin 61) = "00:01:01".toList ∧
    formatTime (F64.fin 3661) = "01:01:01".toList := by
  have hm61 := formatTime_finite (-61) (by norm_num [U64_MAX])
  have h0 := formatTime_finite 0 (by norm_num [U64_MAX])
  have h61 := formatTime_finite 61 (by norm_num [U64_MAX])
  have h3661 := formatTime_finite 3661 (by norm_num [U64_MAX])
  refine ⟨?_, ?_, ?_, ?_⟩
  · rw [hm61, show Nat.floor |(-61 : ℚ)| = 61 by norm_num]
    decide
  · rw [h0, show Nat.floor |(0 : ℚ)| = 0 by norm_num]
    decide
  · rw [h61, show Nat.floor |(61 : ℚ)| = 61 by norm_num]
    decide
  · rw [h3661, show Nat.floor |(3661 : ℚ)| = 3661 by norm_num]
    decide

/-! ## String scanning primitives shared by the embeddings -/

/-- `pat` is a prefix of `s`. -/
def startsWithL : List Char → List Char → Bool
  | _, [] => true
  | [], _ :: _ => false
  | x :: xs, y :: ys => decide (x = y) && startsWithL xs ys

/-- Byte-for-byte model of Rust `str::find(pattern)`: the index of the first
occurrence of `pat` in `s`. -/
def findPat (pat : List Char) : List Char → Option Nat
  | [] => if pat.isEmpty then some 0 else none
  | x :: xs => if startsWithL (x :: xs) pat then some 0 else (findPat pat xs).map (· + 1)

/-- Model of Rust `str::contains(pattern)`. -/
def containsPat (s pat : List Char) : Bool := (findPat pat s).isSome

/-- Model of Rust `str::ends_with(pattern)` (used only to state the spec's
wording; the code itself never calls `ends_with` here). -/
def endsWithL (s pat : List Char) : Bool := startsWithL s.reverse pat.reverse

/-! ## The VOD resolver chain (`platform/mod.rs`) -/

/-- `ResolvedVod` from `platform/mod.rs`. -/
structure ResolvedVod where
  url : List Char
  isHls : Bool
  deriving DecidableEq

/-- `TwitchResolver::can_handle` from `platform/twitch.rs`. -/
def twitchCanHandle (url : List Char) : Bool :=
  containsPat url ("twitch.tv/video".toList)

/-- `YoutubeResolver::can_handle` (via `is_youtube_url`) from
`platform/youtube.rs`. -/
def youtubeCanHandle (url : List Char) : Bool :=
  containsPat url ("youtube.com".toList) || containsPat url ("youtu.be".toList)

/-- One resolver of the chain: its claim test and its resolution function.
The resolution functions perform network calls, so they stay abstract. -/
structure Resolver where
  canHandle : List Char → Bool
  resolve : List Char → Except PlatformError ResolvedVod

/-- `VodResolverChain::resolve` from `platform/mod.rs`: the first resolver
whose `can_handle` claims the URL resolves it; with no claimant the URL is
returned as-is, flagged as HLS iff it contains the substring `.m3u8`. -/
def chainResolve : List Resolver → List Char → Except PlatformError ResolvedVod
  | [], url => .ok ⟨url, containsPat url (".m3u8".toList)⟩
  | r :: rs, url => if r.canHandle url then r.resolve url else chainResolve rs url

/-- The chain built by `VodResolverChain::new`: Twitch then YouTube. -/
def noxChain (tw yt : List Char → Except PlatformError ResolvedVod) : List Resolver :=
  [⟨twitchCanHandle, tw⟩, ⟨youtubeCanHandle, yt⟩]

/-- A placeholder resolution outcome used to instantiate the chain at
concrete inputs on paths where the resolvers are never called. -/
def stubResolve : List Char → Except PlatformError ResolvedVod :=
  fun u => .ok ⟨u, false⟩

/-- C3, counterexample: a URL claimed by no resolver that contains `.m3u8`
followed by a query string. The code flags it as HLS because it tests
substring containment, while the claim requires the flag to be true only
when the URL textually ends in `.m3u8`. -/
theorem chainResolve_fallback_counterexample :
    chainResolve (noxChain stubResolve stubResolve)
        ("http://example.com/v.m3u8?token=1".toList) =
      .ok ⟨("http://example.com/v.m3u8?token=1".toList), true⟩ ∧
    endsWithL ("http://example.com/v.m3u8?token=1".toList) (".m3u8".toList) = false ∧
    twitchCanHandle ("http://example.com/v.m3u8?token=1".toList) = false ∧
    youtubeCanHandle ("http://example.com/v.m3u8?token=1".toList) = false := by
  decide

/-- C3 (amended): for every URL that no resolver in the chain claims,
`resolve` returns the URL unchanged, and its `is_hls` flag is true iff the
URL textually contains the substring `.m3u8` (the code tests containment,
not suffix). -/
theorem chainResolve_fallback (tw yt : List Char → Except PlatformError ResolvedVod)
    (url : List Char) (h1 : twitchCanHandle url = false)
    (h2 : youtubeCanHandle url = false) :
    chainResolve (noxChain tw yt) url = .ok ⟨url, containsPat url (".m3u8".toList)⟩ := by
  simp [chainResolve, noxChain, h1, h2]

/-- Witness for the amended C3 at a concrete unclaimed manifest URL. -/
theorem chainResolve_fallback_witness :
    chainResolve (noxChain stubResolve stubResolve)
        ("http://cdn.example.com/vod/index.m3u8".toList) =
      .ok ⟨("http://cdn.example.com/vod/index.m3u8".toList), true⟩ := by
  rw [chainResolve_fallback stubResolve stubResolve _ (by decide) (by decide)]
  decide

/-! ## The FFmpeg export backend (`export/ffmpeg.rs`)

`export_with_retry` is embedded as a pure function over an environment that
fixes the outcome of every external command: the single possible stream-copy
run, its `verify_output` probe, and the k-th re-encode run and probe
(`none` means the run or the verification succeeded). Alongside the result,
the embedding returns the trace of spawned commands and file deletions,
each tagged with its attempt number. -/

/-- `MAX_RETRIES` from `export/ffmpeg.rs` and `export/ytdlp.rs`. -/
def MAX_RETRIES : Nat := 2

/-- The attempt numbers `1..=MAX_RETRIES` iterated by the retry loops. -/
def attemptNumbers : List Nat := (List.range MAX_RETRIES).map (· + 1)

/-- `FfmpegExporter`; `new` sets `try_copy_first` and nothing changes it. -/
structure FfmpegExporter where
  tryCopyFirst : Bool

/-- `FfmpegExporter::new`. -/
def FfmpegExporter.new : FfmpegExporter := ⟨true⟩

/-- Events observable during one FFmpeg export call. -/
inductive FfEvent
  | runCopy
  | runEncode
  | probeOutput
  | deleteOutput
  deriving DecidableEq

/-- External-world outcomes for one FFmpeg export call. -/
structure FfmpegEnv where
  copyRun : Option ExportError
  copyVerify : Option ExportError
  encodeRun : Nat → Option ExportError
  encodeVerify : Nat → Option ExportError

/-- One iteration of the retry loop of `FfmpegExporter::export_with_retry`:
attempt 1 with `try_copy_first` runs the copy command, verifies on success
(deleting the output and falling through on a bad verification, recording
no error; recording the error on a failed run), then the re-encode command
runs, is verified, and a failure or bad verification records the error.
Returns the events, whether the call returned, the updated last error, and
the re-encode run counter. -/
def ffmpegAttempt (env : FfmpegEnv) (tryCopyFirst : Bool) (attempt k : Nat)
    (lastErr : Option ExportError) :
    List (Nat × FfEvent) × Bool × Option ExportError × Nat :=
  let copyPhase : List (Nat × FfEvent) × Bool × Option ExportError :=
    if tryCopyFirst && attempt == 1 then
      match env.copyRun with
      | none =>
        match env.copyVerify with
        | none => ([(attempt, .runCopy), (attempt, .probeOutput)], true, lastErr)
        | some _ =>
          ([(attempt, .runCopy), (attempt, .probeOutput), (attempt, .deleteOutput)],
            false, lastErr)
      | some e => ([(attempt, .runCopy)], false, some e)
    else ([], false, lastErr)
  match copyPhase with
  | (tr, true, err) => (tr, true, err, k)
  | (tr, false, err) =>
    match env.encodeRun k with
    | none =>
      match env.encodeVerify k with
      | none => (tr ++ [(attempt, .runEncode), (attempt, .probeOutput)], true, err, k + 1)
      | some e =>
        (tr ++ [(attempt, .runEncode), (attempt, .probeOutput), (attempt, .deleteOutput)],
          false, some e, k + 1)
    | some e => (tr ++ [(attempt, .runEncode)], false, some e, k + 1)

/-- The retry loop of `export_with_retry` over the attempt numbers; after the
last attempt it fails with the recorded error, or the generic failure when
none was recorded. -/
def ffmpegLoop (env : FfmpegEnv) (tryCopyFirst : Bool) :
    List Nat → Nat → Option ExportError →
    List (Nat × FfEvent) × Except ExportError Unit
  | [], _, lastErr => ([], .error (lastErr.getD (.ffmpeg "Export failed")))
  | a :: rest, k, lastErr =>
    match ffmpegAttempt env tryCopyFirst a k lastErr with
    | (tr, true, _, _) => (tr, .ok ())
    | (tr, false, err, k2) =>
      match ffmpegLoop env tryCopyFirst rest k2 err with
      | (tr2, res) => (tr ++ tr2, res)

/-- `FfmpegExporter::export_with_retry`: validate the timing first, then
loop over attempts `1..=MAX_RETRIES`. -/
def FfmpegExporter.exportWithRetry (ex : FfmpegExporter) (env : FfmpegEnv)
    (timing : ClipTiming) : List (Nat × FfEvent) × Except ExportError Unit :=
  match timing.validate with
  | .error e => ([], .error e)
  | .ok _ => ffmpegLoop env ex.tryCopyFirst attemptNumbers 0 none

/-! ## The yt-dlp export backend (`export/ytdlp.rs`) -/

/-- `YtDlpExporter`; `new` sets both fields and nothing changes them. -/
structure YtDlpExporter where
  maxHeight : Nat
  forceKeyframes : Bool

/-- `YtDlpExporter::new`. -/
def YtDlpExporter.new : YtDlpExporter := ⟨1080, true⟩

/-- External-world outcome of the k-th spawned yt-dlp run of one export
call (`none` means the run succeeded). -/
structure YtDlpEnv where
  run : Nat → Option ExportError

/-- One iteration of the retry loop of `YtDlpExporter::export_with_retry`:
attempt 1 with `force_keyframes` first runs the command built with the
keyframe flag, returning on success and recording the error otherwise; then
the command built without the flag runs. Events are
`(attempt, with_keyframes)` pairs, one per `build_command` + run. -/
def ytdlpAttempt (env : YtDlpEnv) (forceKeyframes : Bool) (attempt k : Nat)
    (lastErr : Option ExportError) :
    List (Nat × Bool) × Bool × Option ExportError × Nat :=
  let kfPhase : List (Nat × Bool) × Bool × Option ExportError × Nat :=
    if forceKeyframes && attempt == 1 then
      match env.run k with
      | none => ([(attempt, true)], true, lastErr, k + 1)
      | some e => ([(attempt, true)], false, some e, k + 1)
    else ([], false, lastErr, k)
  match kfPhase with
  | (tr, true, err, k2) => (tr, true, err, k2)
  | (tr, false, err, k2) =>
    match env.run k2 with
    | none => (tr ++ [(attempt, false)], true, err, k2 + 1)
    | some e => (tr ++ [(attempt, false)], false, some e, k2 + 1)

/-- The retry loop of yt-dlp `export_with_retry` over the attempt numbers. -/
def ytdlpLoop (env : YtDlpEnv) (forceKeyframes : Bool) :
    List Nat → Nat → Option ExportError →
    List (Nat × Bool) × Except ExportError Unit
  | [], _, lastErr => ([], .error (lastErr.getD (.ytDlp "Export failed")))
  | a :: rest, k, lastErr =>
    match ytdlpAttempt env forceKeyframes a k lastErr with
    | (tr, true, _, _) => (tr, .ok ())
    | (tr, false, err, k2) =>
      match ytdlpLoop env forceKeyframes rest k2 err with
      | (tr2, res) => (tr ++ tr2, res)

/-- `YtDlpExporter::export_with_retry`: validate the timing first, then
loop over attempts `1..=MAX_RETRIES`. -/
def YtDlpExporter.exportWithRetry (ex : YtDlpExporter) (env : YtDlpEnv)
    (timing : ClipTiming) : List (Nat × Bool) × Except ExportError Unit :=
  match timing.validate with
  | .error e => ([], .error e)
  | .ok _ => ytdlpLoop env ex.forceKeyframes attemptNumbers 0 none

/-- A concrete timing that validates, shared by several witnesses. -/
def timingOk : ClipTiming := ⟨F64.fin 10, F64.fin 30⟩

theorem timingOk_valid : timingOk.validate = .ok () := by decide

/-- A concrete timing that fails validation, shared by several witnesses. -/
def timingBad : ClipTiming := ⟨F64.fin (mkRat (-5) 1), F64.fin 30⟩

/-- C1: for every export call on the FFmpeg backend (as built by `new`) with
valid timing: the stream-copy command runs exactly once, on attempt 1, as
the very first command, and is never retried; when the copy run succeeds but
the output verification fails, the output is deleted and the re-encode
command runs within the same attempt 1; the re-encode command runs at most
twice in total; and a failing call returns the error recorded by the last
re-encode stage (its run error, or its verification error when the run
succeeded), so the generic FFmpeg failure stands in only when no error was
ever recorded. -/
theorem ffmpeg_export_retry_spec (env : FfmpegEnv) (t : ClipTiming)
    (hv : t.validate = .ok ()) :
    ((FfmpegExporter.new.exportWithRetry env t).1.filter
        (fun e => decide (e.2 = FfEvent.runCopy))) = [(1, FfEvent.runCopy)] ∧
    ((FfmpegExporter.new.exportWithRetry env t).1.head? = some (1, FfEvent.runCopy)) ∧
    (env.copyRun = none → env.copyVerify.isSome = true →
      (FfmpegExporter.new.exportWithRetry env t).1.take 4 =
        [(1, FfEvent.runCopy), (1, FfEvent.probeOutput),
          (1, FfEvent.deleteOutput), (1, FfEvent.runEncode)]) ∧
    (((FfmpegExporter.new.exportWithRetry env t).1.filter
        (fun e => decide (e.2 = FfEvent.runEncode))).length ≤ 2) ∧
    (∀ e, (FfmpegExporter.new.exportWithRetry env t).2 = .error e →
      env.encodeRun 1 = some e ∨
        (env.encodeRun 1 = none ∧ env.encodeVerify 1 = some e)) := by
  cases hcr : env.copyRun <;> cases hcv : env.copyVerify <;>
    cases he0 : env.encodeRun 0 <;> cases hev0 : env.encodeVerify 0 <;>
    cases he1 : env.encodeRun 1 <;> cases hev1 : env.encodeVerify 1 <;>
    simp_all [FfmpegExporter.exportWithRetry, FfmpegExporter.new, ffmpegLoop,
      ffmpegAttempt, attemptNumbers, MAX_RETRIES, List.range_succ]

/-- Environment for the C1 witness: the copy run succeeds but verifies bad,
and both re-encode runs fail. -/
def ffEnvW : FfmpegEnv where
  copyRun := none
  copyVerify := some (.corruptedOutput "bad")
  encodeRun := fun k => if k == 0 then some (.ffmpeg "e0") else some (.ffmpeg "e1")
  encodeVerify := fun _ => none

/-- Witness for C1 at a concrete environment and timing. -/
theorem ffmpeg_export_retry_spec_witness :
    ((FfmpegExporter.new.exportWithRetry ffEnvW timingOk).1.take 4 =
      [(1, FfEvent.runCopy), (1, FfEvent.probeOutput),
        (1, FfEvent.deleteOutput), (1, FfEvent.runEncode)]) ∧
    ((FfmpegExporter.new.exportWithRetry ffEnvW timingOk).1.filter
        (fun e => decide (e.2 = FfEvent.runCopy))) = [(1, FfEvent.runCopy)] ∧
    (ffEnvW.encodeRun 1 = some (.ffmpeg "e1")) := by
  have h := ffmpeg_export_retry_spec ffEnvW timingOk timingOk_valid
  exact ⟨h.2.2.1 rfl rfl, h.1, rfl⟩

/-- C2: for every export call on the generic-downloader backend (as built by
`new`) with valid timing: the keyframe-forcing command runs exactly once and
only as the first run of attempt 1; on its failure the command without the
keyframe flag runs within the same attempt; attempt 2 runs at most the
no-keyframe command; and after both attempts fail the call returns the last
recorded error, which is the error of the final (third) run. -/
theorem ytdlp_export_retry_spec (env : YtDlpEnv) (t : ClipTiming)
    (hv : t.validate = .ok ()) :
    ((YtDlpExporter.new.exportWithRetry env t).1.filter (fun e => e.2)) =
      [(1, true)] ∧
    ((YtDlpExporter.new.exportWithRetry env t).1.head? = some (1, true)) ∧
    (env.run 0 = none → (YtDlpExporter.new.exportWithRetry env t).1 = [(1, true)]) ∧
    ((env.run 0).isSome = true →
      (YtDlpExporter.new.exportWithRetry env t).1.take 2 = [(1, true), (1, false)]) ∧
    ((YtDlpExporter.new.exportWithRetry env t).1.filter
        (fun e => decide (e.1 = 2)) = [] ∨
      (YtDlpExporter.new.exportWithRetry env t).1.filter
        (fun e => decide (e.1 = 2)) = [(2, false)]) ∧
    (∀ e, (YtDlpExporter.new.exportWithRetry env t).2 = .error e →
      env.run 2 = some e) := by
  cases h0 : env.run 0 <;> cases h1 : env.run 1 <;> cases h2 : env.run 2 <;>
    simp_all [YtDlpExporter.exportWithRetry, YtDlpExporter.new, ytdlpLoop,
      ytdlpAttempt, attemptNumbers, MAX_RETRIES, List.range_succ]

/-- Environment for the C2 witness: all three possible runs fail. -/
def ytEnvW : YtDlpEnv where
  run := fun k => some (.ytDlp (if k == 0 then "a" else if k == 1 then "b" else "c"))

/-- Witness for C2 at a concrete environment and timing. -/
theorem ytdlp_export_retry_spec_witness :
    ((YtDlpExporter.new.exportWithRetry ytEnvW timingOk).1.filter (fun e => e.2)) =
      [(1, true)] ∧
    ((YtDlpExporter.new.exportWithRetry ytEnvW timingOk).1.take 2 =
      [(1, true), (1, false)]) ∧
    (ytEnvW.run 2 = some (.ytDlp "c")) := by
  have h := ytdlp_export_retry_spec ytEnvW timingOk timingOk_valid
  exact ⟨h.1, h.2.2.2.1 rfl, rfl⟩

/-- C8: for every export call on either backend whose timing fails
validation, the call returns the validation error and its command trace is
empty: no subprocess is spawned. -/
theorem export_validate_gate (env1 : FfmpegEnv) (env2 : YtDlpEnv)
    (t : ClipTiming) (e : ExportError) (hv : t.validate = .error e) :
    FfmpegExporter.new.exportWithRetry env1 t = ([], .error e) ∧
    YtDlpExporter.new.exportWithRetry env2 t = ([], .error e) := by
  constructor <;>
    simp [FfmpegExporter.exportWithRetry, YtDlpExporter.exportWithRetry, hv]

/-- An FFmpeg environment where every run succeeds, for the C8 witness. -/
def ffEnvAllOk : FfmpegEnv where
  copyRun := none
  copyVerify := none
  encodeRun := fun _ => none
  encodeVerify := fun _ => none

/-- A yt-dlp environment where every run succeeds, for the C8 witness. -/
def ytEnvAllOk : YtDlpEnv where
  run := fun _ => none

/-- Witness for C8 at a concrete invalid timing. -/
theorem export_validate_gate_witness :
    FfmpegExporter.new.exportWithRetry ffEnvAllOk timingBad =
      ([], .error (.invalidStartTime (F64.fin (mkRat (-5) 1)))) ∧
    YtDlpExporter.new.exportWithRetry ytEnvAllOk timingBad =
      ([], .error (.invalidStartTime (F64.fin (mkRat (-5) 1)))) :=
  export_validate_gate ffEnvAllOk ytEnvAllOk timingBad _ (by decide)

/-! ## The progress protocol parsers (`export/progress.rs`)

Each Rust regex is embedded as a left-to-right scanner that attempts an
anchored match at every position, which is how the regex engine finds the
leftmost match. The anchored matches use maximal (greedy) character runs;
this is equivalent to the regex because every pair of adjacent character
classes in these patterns is disjoint, except for the digit run of the
download-rate pattern, where the scanner backtracks longest-first exactly
like the engine. Captured groups are returned as character data and
converted to numbers at the use site, mirroring `str::parse` in the source. -/

/-- Consume the literal `pat` from the head of `l`. -/
def dropLit : List Char → List Char → Option (List Char)
  | [], l => some l
  | _ :: _, [] => none
  | p :: ps, x :: xs => if x = p then dropLit ps xs else none

/-- Consume exactly two ASCII digits, returning their value. -/
def digit2 : List Char → Option (Nat × List Char)
  | a :: b :: rest =>
    if a.isDigit && b.isDigit then
      some ((a.toNat - 48) * 10 + (b.toNat - 48), rest)
    else none
  | _ => none

/-- Anchored match of the time pattern `time=` `(dd):(dd):(dd).(dd)` at the
head of `l`. -/
def matchTimeAt (l : List Char) : Option (Nat × Nat × Nat × Nat) := do
  let r0 ← dropLit ("time=".toList) l
  let (h, r1) ← digit2 r0
  let r2 ← dropLit [':'] r1
  let (m, r3) ← digit2 r2
  let r4 ← dropLit [':'] r3
  let (s, r5) ← digit2 r4
  let r6 ← dropLit ['.'] r5
  let (c, _) ← digit2 r6
  pure (h, m, s, c)

/-- Leftmost match of the time pattern in a line. -/
def scanTime : List Char → Option (Nat × Nat × Nat × Nat)
  | [] => none
  | x :: xs =>
    match matchTimeAt (x :: xs) with
    | some r => some r
    | none => scanTime xs

/-- Anchored match of the speed pattern at the head of `l`: literal
`speed=`, optional whitespace, a nonempty run over digits and dots, then a
literal `x`; the run is the capture. -/
def matchSpeedAt (l : List Char) : Option (List Char) := do
  let r0 ← dropLit ("speed=".toList) l
  let r1 := r0.dropWhile (fun c => c.isWhitespace)
  let ds := r1.takeWhile (fun c => c.isDigit || decide (c = '.'))
  if ds.isEmpty then none
  else
    match r1.drop ds.length with
    | 'x' :: _ => some ds
    | _ => none

/-- Leftmost match of the speed pattern in a line. -/
def scanSpeed : List Char → Option (List Char)
  | [] => none
  | x :: xs =>
    match matchSpeedAt (x :: xs) with
    | some r => some r
    | none => scanSpeed xs

/-- `FfmpegProgressParser` from `export/progress.rs`: the expected total
duration plus the two compiled patterns. -/
structure FfmpegProgressParser where
  duration : ℚ

/-- `FfmpegProgressParser::new`. -/
def FfmpegProgressParser.new (duration : ℚ) : FfmpegProgressParser := ⟨duration⟩

/-- `FfmpegProgressParser::parse_line`: on a time match, elapsed seconds as
a percentage of the duration capped at 100 (0 when the duration is not
positive), and the optional speed capture suffixed with `x`. -/
def FfmpegProgressParser.parseLine (p : FfmpegProgressParser)
    (line : List Char) : Option (ℚ × Option (List Char)) :=
  match scanTime line with
  | none => none
  | some (h, m, s, c) =>
    let currentTime : ℚ := h * 3600 + m * 60 + s + (c : ℚ) / 100
    let percent : ℚ :=
      if p.duration > 0 then min ((currentTime / p.duration) * 100) 100 else 0
    some (percent, (scanSpeed line).map (fun ds => ds ++ ['x']))

/-- Anchored match of the download-percentage pattern at the head of `l`:
literal `[download]`, one-or-more whitespace, a digit run, an optional dot
with a further digit run, then the percent sign. Returns the integer and
fractional digit groups of the capture. -/
def matchDlAt (l : List Char) : Option (List Char × List Char) := do
  let r0 ← dropLit ("[download]".toList) l
  match r0 with
  | [] => none
  | c :: rest =>
    if c.isWhitespace then
      let r1 := rest.dropWhile (fun ch => ch.isWhitespace)
      let d1 := r1.takeWhile (fun ch => ch.isDigit)
      if d1.isEmpty then none
      else
        match r1.drop d1.length with
        | '.' :: r3 =>
          let d2 := r3.takeWhile (fun ch => ch.isDigit)
          match r3.drop d2.length with
          | '%' :: _ => some (d1, d2)
          | _ => none
        | '%' :: _ => some (d1, [])
        | _ => none
    else none

/-- Leftmost match of the download-percentage pattern in a line. -/
def scanDl : List Char → Option (List Char × List Char)
  | [] => none
  | x :: xs =>
    match matchDlAt (x :: xs) with
    | some r => some r
    | none => scanDl xs

/-- Word character of the rate pattern. -/
def isWordChar (c : Char) : Bool := c.isAlphanum || decide (c = '_')

/-- Digit-run search of the rate pattern: the engine takes the greedy run
over digits and dots first and backtracks to shorter nonempty runs; after
the run come optional whitespace, a nonempty word-character run, and the
literal unit suffix. The capture spans all of them. -/
def tryRateSplit (r : List Char) : Nat → Option (List Char)
  | 0 => none
  | k + 1 =>
    let ds := r.take (k + 1)
    let rest := r.drop (k + 1)
    let ws := rest.takeWhile (fun c => c.isWhitespace)
    let rest2 := rest.drop ws.length
    let ls := rest2.takeWhile isWordChar
    if ls.isEmpty then tryRateSplit r k
    else
      match rest2.drop ls.length with
      | '/' :: 's' :: _ => some (ds ++ ws ++ ls ++ ('/' :: ['s']))
      | _ => tryRateSplit r k

/-- Anchored match of the rate pattern at the head of `l`: literal `at`,
one-or-more whitespace, then the captured rate group. -/
def matchRateAt (l : List Char) : Option (List Char) := do
  let r0 ← dropLit ("at".toList) l
  match r0 with
  | [] => none
  | c :: rest =>
    if c.isWhitespace then
      let r1 := rest.dropWhile (fun ch => ch.isWhitespace)
      let n := (r1.takeWhile (fun ch => ch.isDigit || decide (ch = '.'))).length
      tryRateSplit r1 n
    else none

/-- Leftmost match of the rate pattern in a line. -/
def scanRate : List Char → Option (List Char)
  | [] => none
  | x :: xs =>
    match matchRateAt (x :: xs) with
    | some r => some r
    | none => scanRate xs

/-- `YtDlpProgressParser` from `export/progress.rs`: it holds only its two
compiled patterns. -/
structure YtDlpProgressParser where

/-- `YtDlpProgressParser::new`. -/
def YtDlpProgressParser.new : YtDlpProgressParser := ⟨⟩

/-- Numeric value of a digit run. -/
def digitsToNat (ds : List Char) : Nat :=
  ds.foldl (fun a c => a * 10 + (c.toNat - 48)) 0

/-- Value of a captured decimal percentage with integer digits `d1` and
fractional digits `d2`, as `str::parse` reads it (exact rational here). -/
def decimalVal (d1 d2 : List Char) : ℚ :=
  (digitsToNat d1 : ℚ) + (digitsToNat d2 : ℚ) / (10 : ℚ) ^ d2.length

/-- `YtDlpProgressParser::parse_line`: on a download-percentage match, the
parsed percentage capped at 100 and the optional rate capture. -/
def YtDlpProgressParser.parseLine (_p : YtDlpProgressParser)
    (line : List Char) : Option (ℚ × Option (List Char)) :=
  match scanDl line with
  | none => none
  | some (d1, d2) => some (min (decimalVal d1 d2) 100, scanRate line)

/-- C6: for every line on which the time pattern matches `HH:MM:SS.CC`, the
transcode parser built with positive expected duration `d` reports
`percent = min((elapsed / d) * 100, 100)` where
`elapsed = 3600*H + 60*M + S + CC/100`, and the speed label is the optional
`speed=<number>x` capture suffixed with `x`. -/
theorem ffmpegParser_time_percent (d : ℚ) (hd : 0 < d) (line : List Char)
    (h m s c : Nat) (hscan : scanTime line = some (h, m, s, c)) :
    (FfmpegProgressParser.new d).parseLine line =
      some (min ((((h : ℚ) * 3600 + m * 60 + s + (c : ℚ) / 100) / d) * 100) 100,
        (scanSpeed line).map (fun ds => ds ++ ['x'])) := by
  simp [FfmpegProgressParser.parseLine, FfmpegProgressParser.new, hscan, hd]

/-- Witness for C6 at the two concrete lines of the claim. -/
theorem ffmpegParser_time_percent_witness :
    (FfmpegProgressParser.new 10).parseLine ("time=00:00:05.00".toList) =
      some (50, none) ∧
    (FfmpegProgressParser.new 10).parseLine
        ("time=00:00:10.00 speed=1.50x".toList) =
      some (100, some ("1.50x".toList)) := by
  have h1 := ffmpegParser_time_percent 10 (by norm_num)
    ("time=00:00:05.00".toList) 0 0 5 0 (by decide)
  have h2 := ffmpegParser_time_percent 10 (by norm_num)
    ("time=00:00:10.00 speed=1.50x".toList) 0 0 10 0 (by decide)
  constructor
  · rw [h1, show (scanSpeed ("time=00:00:05.00".toList)).map
        (fun ds => ds ++ ['x']) = none from by decide]
    norm_num
  · rw [h2, show (scanSpeed ("time=00:00:10.00 speed=1.50x".toList)).map
        (fun ds => ds ++ ['x']) = some ("1.50x".toList) from by decide]
    norm_num

/-- C9: built with a non-positive expected duration, the transcode parser
still totally parses every line: any line matching the time pattern reports
percent exactly 0 (the division by the duration is guarded), and any other
line reports nothing; no error or undefined value arises. -/
theorem ffmpegParser_nonpos_duration (d : ℚ) (hd : d ≤ 0) (line : List Char) :
    ((scanTime line).isSome = true →
      (FfmpegProgressParser.new d).parseLine line =
        some (0, (scanSpeed line).map (fun ds => ds ++ ['x']))) ∧
    (scanTime line = none →
      (FfmpegProgressParser.new d).parseLine line = none) := by
  constructor
  · intro hsome
    match hscan : scanTime line with
    | none => rw [hscan] at hsome; cases hsome
    | some (h, m, s, c) =>
      have hnot : ¬ ((0 : ℚ) < d) := not_lt.mpr hd
      simp [FfmpegProgressParser.parseLine, FfmpegProgressParser.new, hscan, hnot]
  · intro hnone
    simp [FfmpegProgressParser.parseLine, hnone]

/-- Witness for C9 at duration 0 and two concrete lines. -/
theorem ffmpegParser_nonpos_duration_witness :
    (FfmpegProgressParser.new 0).parseLine ("time=00:00:05.00".toList) =
      some (0, none) ∧
    (FfmpegProgressParser.new 0).parseLine ("hello".toList) = none := by
  have h1 := ffmpegParser_nonpos_duration 0 (le_refl 0) ("time=00:00:05.00".toList)
  have h2 := ffmpegParser_nonpos_duration 0 (le_refl 0) ("hello".toList)
  refine ⟨?_, h2.2 (by decide)⟩
  rw [h1.1 (by decide), show (scanSpeed ("time=00:00:05.00".toList)).map
      (fun ds => ds ++ ['x']) = none from by decide]

/-- C7: for every line on which the download-percentage pattern matches, the
downloader parser reports the captured percentage capped at 100 together
with the optional `at <rate>` capture as the speed label; for every line on
which the percentage pattern does not match it reports nothing. -/
theorem ytdlpParser_spec (line : List Char) :
    (∀ d1 d2, scanDl line = some (d1, d2) →
      YtDlpProgressParser.new.parseLine line =
        some (min (decimalVal d1 d2) 100, scanRate line)) ∧
    (scanDl line = none → YtDlpProgressParser.new.parseLine line = none) := by
  constructor
  · intro d1 d2 hscan
    simp [YtDlpProgressParser.parseLine, hscan]
  · intro hnone
    simp [YtDlpProgressParser.parseLine, hnone]

/-- Witness for C7 at the concrete line of the claim: percent 45.2 and the
non-empty speed label `5.20MiB/s`. -/
theorem ytdlpParser_spec_witness :
    YtDlpProgressParser.new.parseLine
        ("[download]  45.2% of 100.0MiB at 5.20MiB/s".toList) =
      some (mkRat 226 5, some ("5.20MiB/s".toList)) := by
  have h := (ytdlpParser_spec ("[download]  45.2% of 100.0MiB at 5.20MiB/s".toList)).1
    ("45".toList) ("2".toList) (by decide)
  have hval : decimalVal ("45".toList) ("2".toList) = mkRat 226 5 := by
    rw [decimalVal, show digitsToNat ("45".toList) = 45 from by decide,
      show digitsToNat ("2".toList) = 2 from by decide,
      show ("2".toList).length = 1 from by decide, Rat.mkRat_eq_div]
    norm_num
  rw [h, hval, show scanRate ("[download]  45.2% of 100.0MiB at 5.20MiB/s".toList) =
      some ("5.20MiB/s".toList) from by decide,
    min_eq_left (by rw [Rat.mkRat_eq_div]; norm_num)]

/-! ## The streaming manifest proxy (`proxy.rs`)

The manifest rewriting of `proxy_handler` and `rewrite_uri_attribute` is
embedded over character lists. The URL join performed through
`reqwest::Url::parse` / `Url::join` (with the path-based fallback of
`resolve_url`) stays abstract as a function parameter `join`; the absolute
/ relative dispatch of `resolve_url` is embedded. The active port is a
parameter standing for the `ACTIVE_PORT` atomic read. -/

/-- Uppercase hexadecimal digit. -/
def hexDigit (n : Nat) : Char :=
  if n < 10 then Char.ofNat (48 + n) else Char.ofNat (55 + n)

/-- A byte the `urlencoding` crate leaves unencoded: ASCII alphanumerics
and `-` `.` `_` `~`. -/
def isUrlSafeByte (b : Nat) : Bool :=
  (65 ≤ b && b ≤ 90) || (97 ≤ b && b ≤ 122) || (48 ≤ b && b ≤ 57) ||
    b == 45 || b == 46 || b == 95 || b == 126

/-- UTF-8 bytes of a character. -/
def utf8Bytes (c : Char) : List Nat :=
  let n := c.toNat
  if n < 128 then [n]
  else if n < 2048 then [192 + n / 64, 128 + n % 64]
  else if n < 65536 then [224 + n / 4096, 128 + (n / 64) % 64, 128 + n % 64]
  else [240 + n / 262144, 128 + (n / 4096) % 64, 128 + (n / 64) % 64, 128 + n % 64]

/-- Encoding of one byte: unreserved bytes stand for themselves, every
other byte becomes a percent-escape. -/
def encodeByte (b : Nat) : List Char :=
  if isUrlSafeByte b then [Char.ofNat b]
  else ['%', hexDigit (b / 16), hexDigit (b % 16)]

/-- `urlencoding::encode` over the UTF-8 bytes of `s`. -/
def percentEncode (s : List Char) : List Char :=
  (s.map (fun c => ((utf8Bytes c).map encodeByte).flatten)).flatten

/-- The proxied reference substituted for a resolved absolute URL. -/
def proxyRef (port : Nat) (absUrl : List Char) : List Char :=
  ("http://localhost:".toList) ++ natToChars port ++ ("/proxy?url=".toList) ++
    percentEncode absUrl

/-- `resolve_url` from `proxy.rs`: values with an absolute scheme pass
through; every other value is joined against the base URL. -/
def resolveUrl (join : List Char → List Char → List Char)
    (base rel : List Char) : List Char :=
  if startsWithL rel ("http://".toList) || startsWithL rel ("https://".toList) then rel
  else join base rel

/-- One pattern pass of `rewrite_uri_attribute`: find the `URI=` opening
with quote `q`, find the closing `q`, resolve the value between them and
substitute the double-quoted proxied reference. -/
def tryRewriteUri (port : Nat) (join : List Char → List Char → List Char)
    (base line pat : List Char) (q : Char) : Option (List Char) :=
  match findPat pat line with
  | none => none
  | some start =>
    let uriStart := start + pat.length
    match findPat [q] (line.drop uriStart) with
    | none => none
    | some e =>
      let uri := (line.drop uriStart).take e
      let resolved := resolveUrl join base uri
      some (line.take start ++ ("URI=".toList ++ ['"']) ++ proxyRef port resolved ++
        ['"'] ++ line.drop (uriStart + e + 1))

/-- `rewrite_uri_attribute` from `proxy.rs`: try the double-quoted pattern,
then the single-quoted one; with neither the line passes through. -/
def rewriteUriAttribute (port : Nat) (join : List Char → List Char → List Char)
    (base line : List Char) : List Char :=
  match tryRewriteUri port join base line ("URI=".toList ++ ['"']) '"' with
  | some r => r
  | none =>
    match tryRewriteUri port join base line ("URI=".toList ++ ['\'']) '\'' with
    | some r => r
    | none => line

/-- Rust `str::trim`. -/
def strTrim (s : List Char) : List Char :=
  ((s.dropWhile (fun c => c.isWhitespace)).reverse.dropWhile
    (fun c => c.isWhitespace)).reverse

/-- One line of the manifest rewriting loop of `proxy_handler`: blank lines
pass through; `#EXT` tags containing `URI=` go through
`rewrite_uri_attribute`; other comment lines pass through; every remaining
line is replaced wholesale by a proxied reference to its resolved trimmed
content. -/
def rewriteLine (port : Nat) (join : List Char → List Char → List Char)
    (reqUrl line : List Char) : List Char :=
  let trimmed := strTrim line
  if trimmed.isEmpty then line
  else if startsWithL trimmed ("#EXT".toList) && containsPat trimmed ("URI=".toList) then
    rewriteUriAttribute port join reqUrl line
  else if startsWithL trimmed ("#".toList) then line
  else proxyRef port (resolveUrl join reqUrl trimmed)

/-- Split on a separator character; n separators yield n+1 pieces. -/
def splitOnChar (sep : Char) : List Char → List (List Char)
  | [] => [[]]
  | x :: xs =>
    match splitOnChar sep xs with
    | [] => [[]]
    | y :: ys => if x = sep then [] :: y :: ys else (x :: y) :: ys

/-- Strip one trailing carriage return. -/
def stripCr (l : List Char) : List Char :=
  if l.getLast? = some '\r' then l.dropLast else l

/-- Rust `str::lines`: split on the newline character, drop a final empty
piece (so a trailing newline adds no line), and strip the carriage return
of every piece that was terminated by a newline. -/
def rustLines (s : List Char) : List (List Char) :=
  match (splitOnChar '\n' s).reverse with
  | [] => []
  | last :: revRest =>
    if last.isEmpty then revRest.reverse.map stripCr
    else revRest.reverse.map stripCr ++ [last]

/-- Join pieces with the newline separator (`Vec::join`). -/
def joinWithNl : List (List Char) → List Char
  | [] => []
  | [l] => l
  | l :: l2 :: rest => l ++ '\n' :: joinWithNl (l2 :: rest)

/-- The whole manifest rewriting of `proxy_handler`: lines, map the line
rewriting, join with newlines. -/
def rewriteManifest (port : Nat) (join : List Char → List Char → List Char)
    (reqUrl body : List Char) : List Char :=
  joinWithNl ((rustLines body).map (rewriteLine port join reqUrl))

/-- The closing quote of a URI attribute is found right after the value
when the value itself is free of that quote. -/
theorem findPat_singleton_closing (q : Char) (v b : List Char) (hv : q ∉ v) :
    findPat [q] (v ++ q :: b) = some v.length := by
  induction v with
  | nil => simp [findPat, startsWithL]
  | cons x xs ih =>
    have hx : x ≠ q := fun h => hv (h ▸ List.mem_cons_self x xs)
    have hxs : q ∉ xs := fun h => hv (List.mem_cons_of_mem x h)
    simp [findPat, startsWithL, hx, ih hxs]

/-- A pattern pass whose opening pattern does not occur leaves nothing. -/
theorem tryRewriteUri_none (port : Nat) (join : List Char → List Char → List Char)
    (base line pat : List Char) (q : Char) (h : findPat pat line = none) :
    tryRewriteUri port join base line pat q = none := by
  simp [tryRewriteUri, h]

/-- A pattern pass on a line decomposed around its first `URI=` opening:
the value between the quotes is resolved and replaced by the double-quoted
proxied reference, everything else kept. -/
theorem tryRewriteUri_decomp (port : Nat) (join : List Char → List Char → List Char)
    (base a v b pat : List Char) (q : Char)
    (hfind : findPat pat (a ++ pat ++ v ++ q :: b) = some a.length)
    (hv : q ∉ v) :
    tryRewriteUri port join base (a ++ pat ++ v ++ q :: b) pat q =
      some (a ++ ("URI=".toList ++ ['"']) ++
        proxyRef port (resolveUrl join base v) ++ ['"'] ++ b) := by
  have hdrop : (a ++ pat ++ v ++ q :: b).drop (a.length + pat.length) = v ++ q :: b := by
    rw [show a ++ pat ++ v ++ q :: b = (a ++ pat) ++ (v ++ q :: b) by
      simp [List.append_assoc], ← List.length_append a pat]
    exact List.drop_left _ _
  have htake : (a ++ pat ++ v ++ q :: b).take a.length = a := by
    rw [show a ++ pat ++ v ++ q :: b = a ++ (pat ++ v ++ q :: b) by
      simp [List.append_assoc]]
    exact List.take_left _ _
  have hfq : findPat [q] (v ++ q :: b) = some v.length :=
    findPat_singleton_closing q v b hv
  have hvtake : (v ++ q :: b).take v.length = v := List.take_left _ _
  have hdrop2 : (a ++ pat ++ v ++ q :: b).drop (a.length + pat.length + v.length + 1) = b := by
    rw [show a ++ pat ++ v ++ q :: b = (a ++ pat ++ v ++ [q]) ++ b by simp,
      show a.length + pat.length + v.length + 1 = (a ++ pat ++ v ++ [q]).length by
        simp [List.length_append]
        omega]
    exact List.drop_left _ _
  simp only [tryRewriteUri, hfind, hdrop, hfq, hvtake, hdrop2, htake]

/-- A list with a nonempty prefix is nonempty. -/
theorem startsWithL_isEmpty_false (s : List Char) (x : Char) (xs : List Char)
    (h : startsWithL s (x :: xs) = true) : s.isEmpty = false := by
  cases s with
  | nil => simp [startsWithL] at h
  | cons a as => rfl

/-- A prefix gives the one-character prefix of its head. -/
theorem startsWithL_head (s : List Char) (x : Char) (xs : List Char)
    (h : startsWithL s (x :: xs) = true) : startsWithL s [x] = true := by
  cases s with
  | nil => simp [startsWithL] at h
  | cons a as =>
    simp [startsWithL] at h ⊢
    exact h.1

/-- On a tag line containing the URI marker, the line rewriting dispatches
to `rewrite_uri_attribute`. -/
theorem rewriteLine_uri_branch (port : Nat) (join : List Char → List Char → List Char)
    (reqUrl line : List Char)
    (h1 : startsWithL (strTrim line) ("#EXT".toList) = true)
    (h2 : containsPat (strTrim line) ("URI=".toList) = true) :
    rewriteLine port join reqUrl line = rewriteUriAttribute port join reqUrl line := by
  have hEmpty : (strTrim line).isEmpty = false := startsWithL_isEmpty_false _ _ _ h1
  simp_all [rewriteLine]

/-- C5: the proxy rewrites a manifest body line by line: blank lines pass
through; comment lines without a URI attribute pass through; `#EXT` tag lines
carrying a `URI="..."` (or, when no double-quoted attribute occurs, a
`URI='...'`) attribute have the value resolved against the request URL and
replaced by a double-quoted `/proxy?url=` reference on the active port;
every other non-comment non-blank line is replaced wholesale by such a
reference to its resolved trimmed content; resolution keeps absolute
values and joins relative ones. -/
theorem proxy_manifest_rewrite (port : Nat)
    (join : List Char → List Char → List Char) (reqUrl : List Char) :
    (∀ body, rewriteManifest port join reqUrl body =
      joinWithNl ((rustLines body).map (rewriteLine port join reqUrl))) ∧
    (∀ line, strTrim line = [] → rewriteLine port join reqUrl line = line) ∧
    (∀ line, startsWithL (strTrim line) ("#".toList) = true →
      containsPat (strTrim line) ("URI=".toList) = false →
      rewriteLine port join reqUrl line = line) ∧
    (∀ line a v b, startsWithL (strTrim line) ("#EXT".toList) = true →
      containsPat (strTrim line) ("URI=".toList) = true →
      line = a ++ ("URI=".toList ++ ['"']) ++ v ++ '"' :: b →
      findPat ("URI=".toList ++ ['"']) line = some a.length →
      '"' ∉ v →
      rewriteLine port join reqUrl line =
        a ++ ("URI=".toList ++ ['"']) ++
          proxyRef port (resolveUrl join reqUrl v) ++ ['"'] ++ b) ∧
    (∀ line a v b, startsWithL (strTrim line) ("#EXT".toList) = true →
      containsPat (strTrim line) ("URI=".toList) = true →
      findPat ("URI=".toList ++ ['"']) line = none →
      line = a ++ ("URI=".toList ++ ['\'']) ++ v ++ '\'' :: b →
      findPat ("URI=".toList ++ ['\'']) line = some a.length →
      '\'' ∉ v →
      rewriteLine port join reqUrl line =
        a ++ ("URI=".toList ++ ['"']) ++
          proxyRef port (resolveUrl join reqUrl v) ++ ['"'] ++ b) ∧
    (∀ line, strTrim line ≠ [] → startsWithL (strTrim line) ("#".toList) = false →
      rewriteLine port join reqUrl line =
        proxyRef port (resolveUrl join reqUrl (strTrim line))) ∧
    (∀ rel, (startsWithL rel ("http://".toList) ||
        startsWithL rel ("https://".toList)) = true →
      resolveUrl join reqUrl rel = rel) ∧
    (∀ rel, (startsWithL rel ("http://".toList) ||
        startsWithL rel ("https://".toList)) = false →
      resolveUrl join reqUrl rel = join reqUrl rel) := by
  refine ⟨fun body => rfl, ?_, ?_, ?_, ?_, ?_, ?_, ?_⟩
  · intro line h
    simp [rewriteLine, h]
  · intro line h1 h2
    have hEmpty : (strTrim line).isEmpty = false := startsWithL_isEmpty_false _ _ _ h1
    simp_all [rewriteLine]
  · intro line a v b h1 h2 hline hfind hv
    rw [rewriteLine_uri_branch port join reqUrl line h1 h2]
    subst hline
    unfold rewriteUriAttribute
    rw [tryRewriteUri_decomp port join reqUrl a v b _ '"' hfind hv]
  · intro line a v b h1 h2 hfail hline hfind hv
    rw [rewriteLine_uri_branch port join reqUrl line h1 h2]
    unfold rewriteUriAttribute
    rw [tryRewriteUri_none port join reqUrl line _ '"' hfail]
    subst hline
    rw [tryRewriteUri_decomp port join reqUrl a v b _ '\'' hfind hv]
  · intro line hne h3
    have hEmpty : (strTrim line).isEmpty = false := by
      cases h : strTrim line with
      | nil => exact absurd h hne
      | cons x xs => rfl
    have hEXT : startsWithL (strTrim line) ("#EXT".toList) = false := by
      cases hw : startsWithL (strTrim line) ("#EXT".toList) with
      | false => rfl
      | true =>
        have h1c : startsWithL (strTrim line) ['#'] = true :=
          startsWithL_head (strTrim line) '#' ("EXT".toList) hw
        have h3c : startsWithL (strTrim line) ['#'] = false := h3
        rw [h1c] at h3c
        cases h3c
    simp_all [rewriteLine]
  · intro rel h
    unfold resolveUrl
    rw [h]
    simp
  · intro rel h
    unfold resolveUrl
    rw [h]
    simp

/-- A concrete join function used to instantiate the abstract URL join in
the C5 witness (the joined value itself does not matter to the rewriting
shape). -/
def stubJoin : List Char → List Char → List Char := fun _ rel => rel

/-- Witness for C5: every clause exercised at a concrete port, request URL
and line. -/
theorem proxy_manifest_rewrite_witness :
    rewriteLine 9878 stubJoin ("http://h/m.m3u8".toList) ("   ".toList) =
      "   ".toList ∧
    rewriteLine 9878 stubJoin ("http://h/m.m3u8".toList) ("#EXTINF:10.0,".toList) =
      "#EXTINF:10.0,".toList ∧
    rewriteLine 9878 stubJoin ("http://h/m.m3u8".toList)
        ("#EXT-X-KEY:METHOD=AES-128,URI=\"k.key\",IV=1".toList) =
      ("#EXT-X-KEY:METHOD=AES-128,URI=\"http://localhost:9878/proxy?url=k.key\",IV=1".toList) ∧
    rewriteLine 9878 stubJoin ("http://h/m.m3u8".toList) ("seg1.ts".toList) =
      "http://localhost:9878/proxy?url=seg1.ts".toList ∧
    resolveUrl stubJoin ("http://h/m.m3u8".toList) ("https://cdn/x.ts".toList) =
      "https://cdn/x.ts".toList := by
  have h := proxy_manifest_rewrite 9878 stubJoin ("http://h/m.m3u8".toList)
  refine ⟨h.2.1 _ (by decide), h.2.2.1 _ (by decide) (by decide), ?_,
    h.2.2.2.2.2.1 _ (by decide) (by decide), h.2.2.2.2.2.2.1 _ (by decide)⟩
  have hc := h.2.2.2.1 ("#EXT-X-KEY:METHOD=AES-128,URI=\"k.key\",IV=1".toList)
    ("#EXT-X-KEY:METHOD=AES-128,".toList) ("k.key".toList) (",IV=1".toList)
    (by decide) (by decide) (by decide) (by decide) (by decide)
  exact hc.trans (by decide)

end Nox
